import Mathlib

set_option maxRecDepth 8000

/-!
Shallow embedding of the descriptive-statistics notebook
(`1_descriptive_stats.ipynb`).  The notebook operates on one integer sample
array; every statistic is a pure reduction of that array.  Exact arithmetic
over `ℚ` (and `ℝ` where a square root appears) replaces numpy's floating
point; `Option` marks the computations that can raise (index errors,
`argmax`/`max`/`min` on empty arrays) or that produce no finite numeric value
(division by a zero standard deviation).
-/

namespace DStats

/-- The integer sample array defined in the notebook:
`samples = np.array([1,4,6,3,5,7,4,2,3,4,6,6,5,7,6,6,5])`. -/
def samples : List ℕ := [1, 4, 6, 3, 5, 7, 4, 2, 3, 4, 6, 6, 5, 7, 6, 6, 5]

/-- View of an integer sample list as exact rationals. -/
def ql (s : List ℕ) : List ℚ := s.map (fun x => (Nat.cast x : ℚ))

/-- Ascending sort, modelling `np.sort`. -/
def sortList (s : List ℚ) : List ℚ := List.insertionSort (fun a b => a ≤ b) s

/-- Arithmetic mean, modelling `np.mean`: sum divided by length.  On the
empty array numpy silently returns NaN (a 0/0); in `ℚ` the division by zero
yields the junk value 0, so the empty case produces a value, not a failure. -/
def mean (s : List ℚ) : ℚ := s.sum / (s.length : ℚ)

/-- Occurrence counts of each value `0 .. max`, modelling `np.bincount`
(defined on nonnegative integer data; the result is empty for empty input). -/
def bincount (s : List ℕ) : List ℕ :=
  if s = [] then [] else (List.range (s.foldr max 0 + 1)).map (fun v => s.count v)

/-- Index of the first maximal entry, modelling `.argmax()`; `none` models
the ValueError numpy raises on an empty array. -/
def argmax? (l : List ℕ) : Option ℕ := l.max?.map (fun m => l.indexOf m)

/-- The mode as computed in the notebook: `np.bincount(samples).argmax()`. -/
def mode? (s : List ℕ) : Option ℕ := argmax? (bincount s)

/-- The median as computed in the notebook:
`samples[int((len(samples) + 1) / 2)]` on the ascending-sorted data; `none`
models the IndexError raised on an out-of-range index. -/
def median? (s : List ℚ) : Option ℚ := (sortList s)[(s.length + 1) / 2]?

/-- The lower quartile as computed in the notebook:
`samples[int((len(samples) + 1) / 4)]` on the ascending-sorted data. -/
def lower_q? (s : List ℚ) : Option ℚ := (sortList s)[(s.length + 1) / 4]?

/-- The upper quartile as computed in the notebook:
`samples[int(3 * (len(samples) + 1) / 4)]` on the ascending-sorted data. -/
def upper_q? (s : List ℚ) : Option ℚ := (sortList s)[3 * (s.length + 1) / 4]?

/-- The range as computed in the notebook: `max(samples) - min(samples)`;
`none` models the ValueError of `max`/`min` on an empty sequence. -/
def range? (s : List ℚ) : Option ℚ :=
  match s.max?, s.min? with
  | some a, some b => some (a - b)
  | _, _ => none

/-- The interquartile range as computed in the notebook: `upper_q - lower_q`. -/
def iqr? (s : List ℚ) : Option ℚ :=
  match upper_q? s, lower_q? s with
  | some u, some l => some (u - l)
  | _, _ => none

/-- Population variance, modelling `np.var`: the mean of the squared
deviations from the mean (denominator `n`, numpy's default `ddof=0`). -/
def variance (s : List ℚ) : ℚ := mean (s.map (fun x => (x - mean s) ^ 2))

/-- The k-th central sample moment `m_k = (1/n) Σ (x - mean)^k`, as used by
scipy's internal moment routine for `skew` and `kurtosis`. -/
def moment (s : List ℚ) (k : ℕ) : ℚ := mean (s.map (fun x => (x - mean s) ^ k))

/-- Standard deviation, modelling `np.std`: square root of the variance. -/
noncomputable def std_dev (s : List ℚ) : ℝ := Real.sqrt ((variance s : ℚ) : ℝ)

/-- Division as numpy float scalars perform it: a zero divisor produces no
finite numeric value (NaN or ±inf, with a warning, never an exception),
modelled as `none`. -/
noncomputable def fdiv (a b : ℝ) : Option ℝ := if b = 0 then none else some (a / b)

/-- Pearson mode skewness as computed in the notebook:
`sk1 = (mean - mode) / std`. -/
noncomputable def sk1? (s : List ℕ) : Option ℝ :=
  (mode? s).bind (fun m => fdiv ((mean (ql s) : ℝ) - (m : ℝ)) (std_dev (ql s)))

/-- Pearson median skewness as computed in the notebook:
`sk2 = 3 * (mean - median) / std`. -/
noncomputable def sk2? (s : List ℚ) : Option ℝ :=
  (median? s).bind (fun md => fdiv (3 * ((mean s : ℝ) - (md : ℝ))) (std_dev s))

/-- Fisher-Pearson skewness coefficient, modelling `sp.stats.skew` (biased,
the default): `g1 = m3 / m2^(3/2)`; on the nonnegative `m2` the exponent
`3/2` is the square root cubed. -/
noncomputable def g1? (s : List ℚ) : Option ℝ :=
  fdiv ((moment s 3 : ℚ) : ℝ) (Real.sqrt ((moment s 2 : ℚ) : ℝ) ^ 3)

/-- Excess kurtosis, modelling `sp.stats.kurtosis` (Fisher's definition, the
default): `m4 / m2^2 - 3`; a zero `m2` gives NaN, modelled as `none`. -/
def kurtosis? (s : List ℚ) : Option ℚ :=
  if moment s 2 = 0 then none else some (moment s 4 / (moment s 2) ^ 2 - 3)

/-- Modelled from the spec: the kurtosis formula the spec's operation table
states, namely "(1/n) Σ (x − mean)^4". -/
def kurtosis_spec (s : List ℚ) : ℚ :=
  (s.map (fun x => (x - mean s) ^ 4)).sum / (s.length : ℚ)

/-! ### Evaluation of the statistics on the notebook's fixed sample array -/

theorem ql_samples : ql samples = [(1:ℚ), 4, 6, 3, 5, 7, 4, 2, 3, 4, 6, 6, 5, 7, 6, 6, 5] := by
  norm_num [ql, samples]

theorem sort_samples : sortList (ql samples) =
    [(1:ℚ), 2, 3, 3, 4, 4, 4, 5, 5, 5, 6, 6, 6, 6, 6, 7, 7] := by
  rw [ql_samples]
  norm_num [sortList, List.insertionSort, List.orderedInsert]

theorem length_ql (s : List ℕ) : (ql s).length = s.length := by
  simp [ql]

theorem mean_samples : mean (ql samples) = 80 / 17 := by
  rw [ql_samples]; norm_num [mean]

theorem variance_samples : variance (ql samples) = 808 / 289 := by
  rw [variance, ql_samples]; norm_num [mean]

theorem moment2_samples : moment (ql samples) 2 = 808 / 289 := by
  rw [moment, ql_samples]; norm_num [mean]

theorem moment3_samples : moment (ql samples) 3 = -13476 / 4913 := by
  rw [moment, ql_samples]; norm_num [mean]

theorem moment4_samples : moment (ql samples) 4 = 1618072 / 83521 := by
  rw [moment, ql_samples]; norm_num [mean]

theorem mode_samples : mode? samples = some 6 := by decide

theorem median_samples : median? (ql samples) = some 5 := by
  rw [median?, sort_samples, length_ql]
  norm_num [samples]

theorem lower_q_samples : lower_q? (ql samples) = some 4 := by
  rw [lower_q?, sort_samples, length_ql]
  norm_num [samples]

theorem upper_q_samples : upper_q? (ql samples) = some 6 := by
  rw [upper_q?, sort_samples, length_ql]
  norm_num [samples]

theorem range_samples : range? (ql samples) = some 6 := by
  have h1 : (ql samples).max? = some 7 := by rw [ql_samples]; decide
  have h2 : (ql samples).min? = some 1 := by rw [ql_samples]; decide
  rw [range?, h1, h2]
  norm_num

theorem iqr_samples : iqr? (ql samples) = some 2 := by
  rw [iqr?, upper_q_samples, lower_q_samples]
  norm_num

/-! ### Bounds for the square root of the sample variance 808/289 -/

theorem sqrtv_lb : (1.6720788710 : ℝ) < Real.sqrt ((808 : ℝ) / 289) :=
  (Real.lt_sqrt (by norm_num)).2 (by norm_num)

theorem sqrtv_ub : Real.sqrt ((808 : ℝ) / 289) < 1.6720788711 :=
  (Real.sqrt_lt' (by norm_num)).2 (by norm_num)

theorem sqrtv_pos : (0 : ℝ) < Real.sqrt ((808 : ℝ) / 289) :=
  lt_trans (by norm_num) sqrtv_lb

theorem std_dev_samples : std_dev (ql samples) = Real.sqrt ((808 : ℝ) / 289) := by
  rw [std_dev, variance_samples]
  norm_num

theorem std_dev_samples_ne : std_dev (ql samples) ≠ 0 := by
  rw [std_dev_samples]
  exact ne_of_gt sqrtv_pos

theorem sk1_samples : sk1? samples =
    some (((-22 : ℝ) / 17) / Real.sqrt ((808 : ℝ) / 289)) := by
  rw [sk1?, mode_samples, Option.some_bind, fdiv, if_neg std_dev_samples_ne,
    mean_samples, std_dev_samples]
  norm_num

theorem sk2_samples : sk2? (ql samples) =
    some (((-15 : ℝ) / 17) / Real.sqrt ((808 : ℝ) / 289)) := by
  rw [sk2?, median_samples, Option.some_bind, fdiv, if_neg std_dev_samples_ne,
    mean_samples, std_dev_samples]
  norm_num

theorem g1_samples : g1? (ql samples) =
    some (((-13476 : ℝ) / 4913) / Real.sqrt ((808 : ℝ) / 289) ^ 3) := by
  have hne : Real.sqrt (((moment (ql samples) 2 : ℚ) : ℝ)) ^ 3 ≠ 0 := by
    rw [moment2_samples]
    norm_num
  rw [g1?, fdiv, if_neg hne, moment2_samples, moment3_samples]
  norm_num

theorem kurtosis_samples : kurtosis? (ql samples) = some (-42565 / 81608) := by
  rw [kurtosis?, if_neg (by rw [moment2_samples]; norm_num), moment2_samples,
    moment4_samples]
  norm_num

/-- C1: For the fixed input sequence `[1,4,6,3,5,7,4,2,3,4,6,6,5,7,6,6,5]`
(n = 17), the program produces exactly these statistics: mean = 80/17
(≈ 4.7058823529), mode = 6, median = 5, range = 6, lower quartile = 4,
upper quartile = 6, iqr = 2, population variance ≈ 2.7958477509
(exactly 808/289), std_dev ≈ 1.6720788710, sk1 ≈ −0.7739572992,
sk2 ≈ −0.5276981585, fisher_pearson_skew ≈ −0.5867376555 and excess
kurtosis ≈ −0.5215787668. -/
theorem C1_fixed_input_statistics :
    mean (ql samples) = 80 / 17 ∧
    mode? samples = some 6 ∧
    median? (ql samples) = some 5 ∧
    range? (ql samples) = some 6 ∧
    lower_q? (ql samples) = some 4 ∧
    upper_q? (ql samples) = some 6 ∧
    iqr? (ql samples) = some 2 ∧
    variance (ql samples) = 808 / 289 ∧
    |variance (ql samples) - 2.7958477509| < 1 / 1000000000 ∧
    |std_dev (ql samples) - 1.6720788710| < 1 / 1000000000 ∧
    (∃ x, sk1? samples = some x ∧ |x - (-0.7739572992)| < 1 / 1000000000) ∧
    (∃ x, sk2? (ql samples) = some x ∧ |x - (-0.5276981585)| < 1 / 1000000000) ∧
    (∃ x, g1? (ql samples) = some x ∧ |x - (-0.5867376555)| < 1 / 1000000000) ∧
    (∃ k, kurtosis? (ql samples) = some k ∧ |k - (-0.5215787668)| < 1 / 1000000000) := by
  have hs := sqrtv_pos
  have hl := sqrtv_lb
  have hu := sqrtv_ub
  refine ⟨mean_samples, mode_samples, median_samples, range_samples,
    lower_q_samples, upper_q_samples, iqr_samples, variance_samples, ?_, ?_, ?_, ?_, ?_, ?_⟩
  · rw [variance_samples, abs_lt]
    constructor <;> norm_num
  · rw [std_dev_samples, abs_lt]
    constructor <;> linarith
  · refine ⟨_, sk1_samples, ?_⟩
    have h1 : (-0.7739572993 : ℝ) < -22 / 17 / Real.sqrt ((808 : ℝ) / 289) := by
      rw [lt_div_iff₀ hs]; linarith
    have h2 : (-22 / 17 / Real.sqrt ((808 : ℝ) / 289) : ℝ) < -0.7739572991 := by
      rw [div_lt_iff₀ hs]; linarith
    rw [abs_lt]
    constructor <;> linarith
  · refine ⟨_, sk2_samples, ?_⟩
    have h1 : (-0.5276981586 : ℝ) < -15 / 17 / Real.sqrt ((808 : ℝ) / 289) := by
      rw [lt_div_iff₀ hs]; linarith
    have h2 : (-15 / 17 / Real.sqrt ((808 : ℝ) / 289) : ℝ) < -0.5276981584 := by
      rw [div_lt_iff₀ hs]; linarith
    rw [abs_lt]
    constructor <;> linarith
  · refine ⟨_, g1_samples, ?_⟩
    have hs3 : (0 : ℝ) < Real.sqrt ((808 : ℝ) / 289) ^ 3 := pow_pos hs 3
    have hl3 : (1.6720788710 : ℝ) ^ 3 < Real.sqrt ((808 : ℝ) / 289) ^ 3 :=
      pow_lt_pow_left₀ hl (by norm_num) (by norm_num)
    have hu3 : Real.sqrt ((808 : ℝ) / 289) ^ 3 < (1.6720788711 : ℝ) ^ 3 :=
      pow_lt_pow_left₀ hu (le_of_lt hs) (by norm_num)
    have h1 : (-0.5867376556 : ℝ) < -13476 / 4913 / Real.sqrt ((808 : ℝ) / 289) ^ 3 := by
      rw [lt_div_iff₀ hs3]; nlinarith
    have h2 : (-13476 / 4913 / Real.sqrt ((808 : ℝ) / 289) ^ 3 : ℝ) < -0.5867376553 := by
      rw [div_lt_iff₀ hs3]; nlinarith
    rw [abs_lt]
    constructor <;> linarith
  · refine ⟨_, kurtosis_samples, ?_⟩
    rw [abs_lt]
    constructor <;> norm_num

/-- C10: the invariant n ≥ 1 does not make the positional lookups safe: for
`[5]` (n = 1) the median index floor((n+1)/2) = 1 equals the length and the
lookup has no result, and for `[1,2,3]` (n = 3) the upper-quartile index
floor(3(n+1)/4) = 3 equals the length and the lookup has no result. -/
theorem C10_n_ge_one_not_sufficient :
    ([(5:ℚ)].length = 1 ∧ ([(5:ℚ)].length + 1) / 2 = [(5:ℚ)].length ∧
      median? [(5:ℚ)] = none) ∧
    ([(1:ℚ), 2, 3].length = 3 ∧ 3 * ([(1:ℚ), 2, 3].length + 1) / 4 = [(1:ℚ), 2, 3].length ∧
      upper_q? [(1:ℚ), 2, 3] = none) := by
  decide

/-- C2 counterexample: on the input `[0,4]` the program's kurtosis is
`m4/m2^2 - 3 = -2`, while the spec's formula `(1/n) Σ (x - mean)^4` gives 16
(and 13 after subtracting 3); the program equals neither. -/
theorem C2_cex_kurtosis_not_fourth_moment :
    kurtosis? [(0:ℚ), 4] = some (-2) ∧
    kurtosis_spec [(0:ℚ), 4] = 16 ∧
    kurtosis? [(0:ℚ), 4] ≠ some (kurtosis_spec [(0:ℚ), 4]) ∧
    kurtosis? [(0:ℚ), 4] ≠ some (kurtosis_spec [(0:ℚ), 4] - 3) := by
  have h2 : moment [(0:ℚ), 4] 2 = 4 := by norm_num [moment, mean]
  have h4 : moment [(0:ℚ), 4] 4 = 16 := by norm_num [moment, mean]
  have hk : kurtosis? [(0:ℚ), 4] = some (-2) := by
    rw [kurtosis?, if_neg (by rw [h2]; norm_num), h2, h4]
    norm_num
  have hsp : kurtosis_spec [(0:ℚ), 4] = 16 := by norm_num [kurtosis_spec, mean]
  refine ⟨hk, hsp, ?_, ?_⟩ <;> rw [hk, hsp] <;> simp <;> norm_num

/-- C2 amended: for every sample sequence of nonzero variance, the kurtosis
computed by the program is the spec's fourth-moment sum `(1/n) Σ (x - mean)^4`
divided by the square of the population variance, minus 3 (Fisher excess
kurtosis of the standardized variable) — not the raw fourth moment itself. -/
theorem C2_amended_kurtosis_standardized (s : List ℚ) (h : variance s ≠ 0) :
    kurtosis? s = some (kurtosis_spec s / (variance s) ^ 2 - 3) := by
  have hv : moment s 2 = variance s := rfl
  have hm4 : moment s 4 = kurtosis_spec s := by
    rw [moment, mean, kurtosis_spec, List.length_map]
  rw [kurtosis?, if_neg (by rw [hv]; exact h), hv, hm4]

/-- Witness for C2's amended theorem at the concrete input `[0,4]`. -/
theorem C2_amended_kurtosis_standardized_witness :
    variance [(0:ℚ), 4] ≠ 0 ∧
    kurtosis? [(0:ℚ), 4] = some (kurtosis_spec [(0:ℚ), 4] / (variance [(0:ℚ), 4]) ^ 2 - 3) :=
  ⟨by norm_num [variance, mean],
   C2_amended_kurtosis_standardized [(0:ℚ), 4] (by norm_num [variance, mean])⟩

/-- C7 counterexample: on the empty input the program's mean does not fail
with any error: numpy silently returns NaN (a 0/0 without an exception; in
the ℚ embedding the zero-division junk value 0), and likewise the variance;
so it is false that every statistic requiring n ≥ 1 fails on empty input. -/
theorem C7_cex_mean_empty_is_silent :
    mean ([] : List ℚ) = 0 ∧ variance ([] : List ℚ) = 0 := by
  constructor <;> norm_num [mean, variance]

/-- C7 amended: on the empty input the order-statistic and frequency
computations (median, quartiles, iqr, range, mode) do fail (index error /
ValueError, modelled as `none`) — but there is no `EmptyInputError`, and
mean, variance and std do not fail at all: numpy silently returns NaN
(modelled as the zero-division junk value 0). -/
theorem C7_amended_empty_input :
    median? ([] : List ℚ) = none ∧
    lower_q? ([] : List ℚ) = none ∧
    upper_q? ([] : List ℚ) = none ∧
    iqr? ([] : List ℚ) = none ∧
    range? ([] : List ℚ) = none ∧
    mode? ([] : List ℕ) = none ∧
    mean ([] : List ℚ) = 0 ∧
    variance ([] : List ℚ) = 0 ∧
    std_dev ([] : List ℚ) = 0 := by
  have hv : variance ([] : List ℚ) = 0 := by norm_num [variance, mean]
  refine ⟨rfl, rfl, rfl, rfl, rfl, rfl, by norm_num [mean], hv, ?_⟩
  rw [std_dev, hv]
  norm_num

/-- C3 counterexample: for `[1,2,3]` (n = 3) the program median is the
element at 0-based index floor((n+1)/2) = 2, the value 3; the
⌈(n+1)/2⌉-th = 2nd element counting from 1 is the value 2, so the claimed
1-based description of the same position is wrong for odd n. -/
theorem C3_cex_ceil_description_fails :
    median? [(1:ℚ), 2, 3] = some 3 ∧
    Nat.ceil ((((3:ℕ) : ℚ) + 1) / 2) = 2 ∧
    (sortList [(1:ℚ), 2, 3])[2 - 1]? = some 2 ∧
    median? [(1:ℚ), 2, 3] ≠ (sortList [(1:ℚ), 2, 3])[2 - 1]? := by
  refine ⟨by decide, ?_, by decide, by decide⟩
  rw [show ((((3:ℕ) : ℚ) + 1) / 2) = 2 by norm_num]
  simp

/-- C3 amended: for every sample sequence, whenever the median is computed it
is the element of the ascending-sorted sequence at 0-based index
floor((n+1)/2) — i.e. the (floor((n+1)/2) + 1)-th element counting from 1,
not the ⌈(n+1)/2⌉-th — and it is an actual member of the sample: no
averaging of two middle elements is ever performed. -/
theorem C3_amended_median_positional (s : List ℚ) (v : ℚ) (h : median? s = some v) :
    v ∈ s ∧ (sortList s)[(s.length + 1) / 2]? = some v := by
  refine ⟨?_, h⟩
  have hmem : v ∈ sortList s := by
    rw [median?] at h
    exact List.getElem?_mem h
  exact ((List.perm_insertionSort (fun a b => a ≤ b) s).mem_iff).1 hmem

/-- Witness for C3's amended theorem at the concrete input `[1,2,3]`. -/
theorem C3_amended_median_positional_witness :
    (3:ℚ) ∈ [(1:ℚ), 2, 3] ∧
    (sortList [(1:ℚ), 2, 3])[([(1:ℚ), 2, 3].length + 1) / 2]? = some 3 :=
  C3_amended_median_positional [(1:ℚ), 2, 3] 3 (by decide)

/-! ### Properties of the bincount/argmax mode computation -/

theorem le_foldr_max (s : List ℕ) : ∀ u ∈ s, u ≤ s.foldr max 0 := by
  induction s with
  | nil => intro u hu; cases hu
  | cons a t ih =>
    intro u hu
    rcases List.mem_cons.1 hu with rfl | hu
    · exact le_max_left _ _
    · exact le_trans (ih u hu) (le_max_right _ _)

theorem count_eq_zero_of_max_lt {s : List ℕ} {u : ℕ} (h : s.foldr max 0 < u) :
    s.count u = 0 :=
  List.count_eq_zero.2 (fun hu => absurd (le_foldr_max s u hu) (not_le.2 h))

theorem bincount_length {s : List ℕ} (h : s ≠ []) :
    (bincount s).length = s.foldr max 0 + 1 := by
  rw [bincount, if_neg h, List.length_map, List.length_range]

theorem bincount_getElem? {s : List ℕ} (h : s ≠ []) {v : ℕ}
    (hv : v < s.foldr max 0 + 1) : (bincount s)[v]? = some (s.count v) := by
  rw [bincount, if_neg h, List.getElem?_map, List.getElem?_range hv]
  rfl

/-- The mode value returned by `np.bincount(s).argmax()` on a nonempty sample
is a member of the sample of maximal occurrence count, and among the values
of maximal count it is the smallest (argmax returns the first maximum). -/
theorem mode?_spec (s : List ℕ) (h : s ≠ []) :
    ∃ v, mode? s = some v ∧ v ∈ s ∧ (∀ u, s.count u ≤ s.count v) ∧
      (∀ u, s.count u = s.count v → v ≤ u) := by
  have hlen : (bincount s).length = s.foldr max 0 + 1 := bincount_length h
  have hbne : bincount s ≠ [] := by
    intro he
    rw [he] at hlen
    simp at hlen
  obtain ⟨m, hm⟩ : ∃ m, (bincount s).max? = some m := by
    cases hbm : (bincount s).max? with
    | none => exact absurd (List.max?_eq_none_iff.1 hbm) hbne
    | some m => exact ⟨m, rfl⟩
  obtain ⟨hmmem, hall⟩ := List.max?_eq_some_iff'.1 hm
  have hvlt : (bincount s).indexOf m < (bincount s).length :=
    List.indexOf_lt_length.2 hmmem
  have hvmax : (bincount s).indexOf m < s.foldr max 0 + 1 := hlen ▸ hvlt
  have hbv : (bincount s)[(bincount s).indexOf m]? = some m :=
    List.getElem?_eq_some.2 ⟨hvlt, List.getElem_indexOf hvlt⟩
  have hcv : s.count ((bincount s).indexOf m) = m :=
    (Option.some.inj (hbv.symm.trans (bincount_getElem? h hvmax))).symm
  have hcount_le : ∀ u, s.count u ≤ s.count ((bincount s).indexOf m) := by
    intro u
    rw [hcv]
    by_cases hu : u < s.foldr max 0 + 1
    · exact hall _ (List.getElem?_mem (bincount_getElem? h hu))
    · rw [count_eq_zero_of_max_lt (by omega)]
      exact Nat.zero_le _
  refine ⟨(bincount s).indexOf m, ?_, ?_, hcount_le, ?_⟩
  · rw [mode?, argmax?, hm]
    rfl
  · obtain ⟨a, ha⟩ := List.exists_mem_of_ne_nil s h
    have h1 : 0 < s.count a := List.count_pos_iff.2 ha
    have h2 : 0 < s.count ((bincount s).indexOf m) := lt_of_lt_of_le h1 (hcount_le a)
    exact List.count_pos_iff.1 h2
  · intro u hu
    by_contra hvu
    push_neg at hvu
    have hum : u < s.foldr max 0 + 1 := lt_trans hvu hvmax
    have h1 : (bincount s)[u]? = some m := by
      rw [bincount_getElem? h hum, hu, hcv]
    obtain ⟨hul, he⟩ := List.getElem?_eq_some.1 h1
    have hne := @List.not_of_lt_findIdx ℕ (fun x => x == m) (bincount s) u hvu
    simp only [beq_eq_false_iff_ne, ne_eq] at hne
    exact hne he

/-- C6: for every non-empty sample sequence the computed mode is a value of
maximal occurrence count, and when several values are tied for the maximal
count the smallest such value is returned; in particular on `[1,1,2,2]` the
(deterministic) tie-break winner is 1. -/
theorem C6_mode_maximal_count_smallest_tie :
    (∀ s : List ℕ, s ≠ [] → ∃ v, mode? s = some v ∧ v ∈ s ∧
      (∀ u, s.count u ≤ s.count v) ∧ (∀ u, s.count u = s.count v → v ≤ u)) ∧
    mode? [1, 1, 2, 2] = some 1 :=
  ⟨fun s h => mode?_spec s h, by decide⟩

/-- Witness for C6 at the concrete input `[1,1,2,2]`. -/
theorem C6_mode_maximal_count_smallest_tie_witness :
    ([1, 1, 2, 2] : List ℕ) ≠ [] ∧
    ∃ v, mode? [1, 1, 2, 2] = some v ∧ v ∈ ([1, 1, 2, 2] : List ℕ) ∧
      (∀ u, ([1, 1, 2, 2] : List ℕ).count u ≤ ([1, 1, 2, 2] : List ℕ).count v) ∧
      (∀ u, ([1, 1, 2, 2] : List ℕ).count u = ([1, 1, 2, 2] : List ℕ).count v → v ≤ u) :=
  ⟨by decide, C6_mode_maximal_count_smallest_tie.1 [1, 1, 2, 2] (by decide)⟩

/-! ### Quartiles: positional indices, membership, ordering -/

theorem natCast_add_one_div_floor (n : ℕ) (k : ℕ) :
    Nat.floor (((n : ℚ) + 1) / (k : ℚ)) = (n + 1) / k := by
  rw [show ((n : ℚ) + 1) = ((n + 1 : ℕ) : ℚ) by push_cast; ring, Nat.floor_div_nat,
    Nat.floor_natCast]

theorem natCast_three_mul_add_one_div_floor (n : ℕ) (k : ℕ) :
    Nat.floor ((3 * ((n : ℚ) + 1)) / (k : ℚ)) = 3 * (n + 1) / k := by
  rw [show (3 * ((n : ℚ) + 1)) = ((3 * (n + 1) : ℕ) : ℚ) by push_cast; ring,
    Nat.floor_div_nat, Nat.floor_natCast]

/-- C4: the lower quartile is the ascending-sorted sequence at 0-based index
floor((n+1)/4), the upper quartile at 0-based index floor(3(n+1)/4), the iqr
is their difference, and both quartiles are actual members of the sample (no
interpolation is performed). -/
theorem C4_quartiles_positional (s : List ℚ) :
    lower_q? s = (sortList s)[Nat.floor (((s.length : ℚ) + 1) / (4 : ℚ))]? ∧
    upper_q? s = (sortList s)[Nat.floor ((3 * ((s.length : ℚ) + 1)) / (4 : ℚ))]? ∧
    ∀ lo hi, lower_q? s = some lo → upper_q? s = some hi →
      iqr? s = some (hi - lo) ∧ lo ∈ s ∧ hi ∈ s := by
  refine ⟨?_, ?_, ?_⟩
  · rw [show ((4 : ℚ)) = ((4 : ℕ) : ℚ) by norm_num, natCast_add_one_div_floor]
    rfl
  · rw [show ((4 : ℚ)) = ((4 : ℕ) : ℚ) by norm_num, natCast_three_mul_add_one_div_floor]
    rfl
  · intro lo hi h1 h2
    refine ⟨?_, ?_, ?_⟩
    · rw [iqr?, h2, h1]
    · rw [lower_q?] at h1
      exact ((List.perm_insertionSort (fun a b => a ≤ b) s).mem_iff).1
        (List.getElem?_mem h1)
    · rw [upper_q?] at h2
      exact ((List.perm_insertionSort (fun a b => a ≤ b) s).mem_iff).1
        (List.getElem?_mem h2)

/-- Witness for C4 at the fixed sample array (quartiles 4 and 6, iqr 2). -/
theorem C4_quartiles_positional_witness :
    iqr? (ql samples) = some (6 - 4) ∧ (4:ℚ) ∈ ql samples ∧ (6:ℚ) ∈ ql samples :=
  (C4_quartiles_positional (ql samples)).2.2 4 6 lower_q_samples upper_q_samples

/-- C5: the variance computed by the program is the population variance
`sum((x - mean)^2) / n` (denominator n, not n-1), and std_dev is its
(nonnegative) square root. -/
theorem C5_variance_population (s : List ℚ) (_h : s ≠ []) :
    variance s = (s.map (fun x => (x - mean s) ^ 2)).sum / (s.length : ℚ) ∧
    0 ≤ std_dev s ∧ std_dev s ^ 2 = ((variance s : ℚ) : ℝ) := by
  have hv : variance s = (s.map (fun x => (x - mean s) ^ 2)).sum / (s.length : ℚ) := by
    rw [variance, mean, List.length_map]
  have hnn : 0 ≤ variance s := by
    rw [hv]
    apply div_nonneg
    · apply List.sum_nonneg
      intro x hx
      obtain ⟨y, _, rfl⟩ := List.mem_map.1 hx
      exact sq_nonneg _
    · exact Nat.cast_nonneg _
  refine ⟨hv, Real.sqrt_nonneg _, ?_⟩
  rw [std_dev]
  exact Real.sq_sqrt (by exact_mod_cast hnn)

/-- Witness for C5 at the concrete input `[0,4]`. -/
theorem C5_variance_population_witness :
    variance [(0:ℚ), 4] =
      ([(0:ℚ), 4].map (fun x => (x - mean [(0:ℚ), 4]) ^ 2)).sum / (([(0:ℚ), 4].length : ℕ) : ℚ) ∧
    0 ≤ std_dev [(0:ℚ), 4] ∧ std_dev [(0:ℚ), 4] ^ 2 = ((variance [(0:ℚ), 4] : ℚ) : ℝ) :=
  C5_variance_population [(0:ℚ), 4] (by simp)

/-- C9: whenever the three positional order statistics are all computed, they
are ordered: lower quartile ≤ median ≤ upper quartile; they index the same
ascending-sorted sequence at monotonically ordered positions. -/
theorem C9_quartile_median_order (s : List ℚ) (lo md hi : ℚ)
    (h1 : lower_q? s = some lo) (h2 : median? s = some md) (h3 : upper_q? s = some hi) :
    lo ≤ md ∧ md ≤ hi := by
  rw [lower_q?] at h1
  rw [median?] at h2
  rw [upper_q?] at h3
  obtain ⟨b1, e1⟩ := List.getElem?_eq_some.1 h1
  obtain ⟨b2, e2⟩ := List.getElem?_eq_some.1 h2
  obtain ⟨b3, e3⟩ := List.getElem?_eq_some.1 h3
  have hsorted : List.Sorted (fun a b : ℚ => a ≤ b) (sortList s) :=
    List.sorted_insertionSort (fun a b => a ≤ b) s
  have hi12 : (s.length + 1) / 4 ≤ (s.length + 1) / 2 := by omega
  have hi23 : (s.length + 1) / 2 ≤ 3 * (s.length + 1) / 4 := by omega
  constructor
  · rw [← e1, ← e2]
    exact hsorted.rel_get_of_le (by simpa using hi12)
  · rw [← e2, ← e3]
    exact hsorted.rel_get_of_le (by simpa using hi23)

/-- Witness for C9 at the fixed sample array: 4 ≤ 5 and 5 ≤ 6. -/
theorem C9_quartile_median_order_witness : (4:ℚ) ≤ 5 ∧ (5:ℚ) ≤ 6 :=
  C9_quartile_median_order (ql samples) 4 5 6 lower_q_samples median_samples
    upper_q_samples

/-! ### Constant sequences -/

theorem mean_replicate {n : ℕ} (hn : 0 < n) (c : ℚ) :
    mean (List.replicate n c) = c := by
  rw [mean, List.sum_replicate, List.length_replicate, nsmul_eq_mul]
  exact mul_div_cancel_left₀ c (by exact_mod_cast hn.ne')

theorem variance_replicate {n : ℕ} (hn : 0 < n) (c : ℚ) :
    variance (List.replicate n c) = 0 := by
  rw [variance, mean_replicate hn, List.map_replicate]
  simp only [sub_self]
  rw [show ((0:ℚ) ^ 2) = 0 by norm_num, mean_replicate hn]

theorem std_dev_replicate {n : ℕ} (hn : 0 < n) (c : ℚ) :
    std_dev (List.replicate n c) = 0 := by
  rw [std_dev, variance_replicate hn]
  simp

theorem sort_replicate (n : ℕ) (c : ℚ) :
    sortList (List.replicate n c) = List.replicate n c := by
  apply List.Sorted.insertionSort_eq
  induction n with
  | zero => simp
  | succ k ih =>
    rw [List.replicate_succ, List.sorted_cons]
    exact ⟨fun b hb => le_of_eq (List.eq_of_mem_replicate hb).symm, ih⟩

theorem median?_replicate {n : ℕ} (hn : 2 ≤ n) (c : ℚ) :
    median? (List.replicate n c) = some c := by
  rw [median?, sort_replicate, List.length_replicate]
  exact List.getElem?_replicate_of_lt (by omega)

theorem upper_q?_replicate {n : ℕ} (hn : 4 ≤ n) (c : ℚ) :
    upper_q? (List.replicate n c) = some c := by
  rw [upper_q?, sort_replicate, List.length_replicate]
  exact List.getElem?_replicate_of_lt (by omega)

theorem lower_q?_replicate {n : ℕ} (hn : 1 ≤ n) (c : ℚ) :
    lower_q? (List.replicate n c) = some c := by
  rw [lower_q?, sort_replicate, List.length_replicate]
  exact List.getElem?_replicate_of_lt (by omega)

theorem mode?_replicate {n : ℕ} (hn : 0 < n) (c : ℕ) :
    mode? (List.replicate n c) = some c := by
  obtain ⟨v, hv, hmem, -, -⟩ :=
    mode?_spec (List.replicate n c)
      (List.ne_nil_of_length_pos (by simpa using hn))
  rw [hv, List.eq_of_mem_replicate hmem]

/-- C8 counterexample: `[5]` is a constant sequence with n = 1 ≥ 1, yet the
program's iqr is not 0 there: the upper-quartile lookup at index
3·(1+1)/4 = 1 is out of range, so the iqr computation fails. -/
theorem C8_cex_constant_singleton_iqr :
    iqr? (List.replicate 1 (5:ℚ)) = none ∧ iqr? (List.replicate 1 (5:ℚ)) ≠ some 0 := by
  decide

/-- C8 amended: for every constant sequence with n ≥ 4 (so that all
positional lookups are in bounds): variance = 0, std_dev = 0, range = 0 and
iqr = 0, and the skewness ratios sk1 and sk2 divide by the zero standard
deviation and so produce no finite numeric value (numpy's NaN, modelled as
`none`) rather than inconsistent numbers.  (For n ∈ {1,2,3} the quartile or
median lookups themselves fail, see the counterexample.) -/
theorem C8_constant_sequences (n : ℕ) (hn : 4 ≤ n) :
    (∀ c : ℚ, variance (List.replicate n c) = 0 ∧ std_dev (List.replicate n c) = 0 ∧
      range? (List.replicate n c) = some 0 ∧ iqr? (List.replicate n c) = some 0 ∧
      sk2? (List.replicate n c) = none) ∧
    (∀ c : ℕ, sk1? (List.replicate n c) = none) := by
  have hn0 : 0 < n := by omega
  constructor
  · intro c
    have hstd : std_dev (List.replicate n c) = 0 := std_dev_replicate hn0 c
    refine ⟨variance_replicate hn0 c, hstd, ?_, ?_, ?_⟩
    · rw [range?, List.max?_replicate_of_pos (max_self c) hn0,
        List.min?_replicate_of_pos (min_self c) hn0]
      simp
    · rw [iqr?, upper_q?_replicate hn c, lower_q?_replicate (by omega) c]
      simp
    · rw [sk2?, median?_replicate (by omega) c, Option.some_bind, fdiv, if_pos hstd]
  · intro c
    have hql : ql (List.replicate n c) = List.replicate n ((c : ℚ)) := by
      simp [ql, List.map_replicate]
    rw [sk1?, mode?_replicate hn0 c, Option.some_bind, fdiv, hql,
      if_pos (std_dev_replicate hn0 _)]

/-- Witness for C8's amended theorem at n = 4 with constants 3 and 2. -/
theorem C8_constant_sequences_witness :
    (variance (List.replicate 4 (3:ℚ)) = 0 ∧ std_dev (List.replicate 4 (3:ℚ)) = 0 ∧
      range? (List.replicate 4 (3:ℚ)) = some 0 ∧ iqr? (List.replicate 4 (3:ℚ)) = some 0 ∧
      sk2? (List.replicate 4 (3:ℚ)) = none) ∧
    sk1? (List.replicate 4 2) = none :=
  ⟨(C8_constant_sequences 4 (by norm_num)).1 3, (C8_constant_sequences 4 (by norm_num)).2 2⟩

end DStats
